import Mathlib

/-!
Verification of the NanoVDB/OpenVDB command-line converter
(`nanovdb/cmd/convert/nanovdb_convert.cpp`).

The tool is a batch conversion driver: it parses the argument vector,
classifies the conversion direction from the output file's extension
(`.nvdb` means OpenVDB to NanoVDB, `.vdb` means NanoVDB to OpenVDB),
guards against overwriting an existing non-empty output file, and runs
one of two conversion loops.  The shallow embedding below models the
argument parser and the driver's control flow exactly as written, with
the external library abstracted into a `World` (which files are
non-empty, what the user answers on standard input, and which named
grids each input file contains).  File-system activity is recorded as
an explicit event trace so that ordering and frame properties can be
stated.
-/

namespace NanoVDBConvert

/-- Compression codec, mirroring `nanovdb::io::Codec` as used at lines 44,
59-62 of `nanovdb_convert.cpp`. -/
inductive Codec
  | NONE
  | BLOSC
  | ZIP
deriving DecidableEq, Repr

/-- Statistics mode, mirroring `nanovdb::StatsMode` as used at lines 45,
88-95. -/
inductive StatsMode
  | Default
  | Disable
  | BBox
  | MinMax
  | All
deriving DecidableEq, Repr

/-- Checksum mode, mirroring `nanovdb::ChecksumMode` as used at lines 46,
70-75.  `Part` stands for the source's `ChecksumMode::Partial`. -/
inductive ChecksumMode
  | Default
  | Disable
  | Part
  | Full
deriving DecidableEq, Repr

/-- The mutable state built up by the argument-parsing loop of `main`
(lines 44-49): codec, stats mode, checksum mode, the two boolean flags,
the optional grid-name filter (empty string means absent, as in the
source) and the positional file-name operands in order. -/
structure Options where
  codec : Codec := .NONE
  sMode : StatsMode := .Default
  cMode : ChecksumMode := .Default
  verbose : Bool := false
  overwrite : Bool := false
  gridName : String := ""
  fileNames : List String := []
deriving DecidableEq, Repr

/-- ASCII lower-casing of a string, character by character, mirroring the
`std::transform(... std::tolower ...)` calls at lines 69 and 87 (in the
C locale `std::tolower` only maps `A`-`Z`, exactly like `Char.toLower`). -/
def lowerStr (s : String) : String := String.mk (s.data.map Char.toLower)

/-- The option-token test `arg[0] == '-'` of line 52 (for the empty
string, `arg[0]` in C++ is the null character, which is not `-`). -/
def headIsDash (s : String) : Bool :=
  match s.data with
  | [] => false
  | c :: _ => c = '-'

/-- Result of the argument-parsing loop: either the final options, or an
early `usage(...)` exit, which is `exit(EXIT_SUCCESS)` for `-h,--help`
(line 58) and `exit(EXIT_FAILURE)` for every parse error. -/
inductive ParseResult
  | ok (opts : Options)
  | usageExit (success : Bool)
deriving DecidableEq, Repr

/-- The argument-parsing loop of `main`, lines 50-115, translated
clause by clause.  A token starting with `-` is dispatched over the
recognized flags (an unknown one is a usage failure, line 108-111); the
value-taking flags `-c`, `-s`, `-g` consume the following token, failing
when it is absent; any other non-empty token is collected as a file-name
operand (line 112-114). -/
def parseLoop : List String → Options → ParseResult
  | [], opts => .ok opts
  | arg :: rest, opts =>
    if headIsDash arg then
      if arg = "-v" ∨ arg = "--verbose" then
        parseLoop rest { opts with verbose := true }
      else if arg = "-f" ∨ arg = "--force" then
        parseLoop rest { opts with overwrite := true }
      else if arg = "-h" ∨ arg = "--help" then
        .usageExit true
      else if arg = "-b" ∨ arg = "--blosc" then
        parseLoop rest { opts with codec := .BLOSC }
      else if arg = "-z" ∨ arg = "--zip" then
        parseLoop rest { opts with codec := .ZIP }
      else if arg = "-c" ∨ arg = "--checksum" then
        match rest with
        | [] => .usageExit false
        | v :: rest2 =>
          let str := lowerStr v
          if str = "none" then parseLoop rest2 { opts with cMode := .Disable }
          else if str = "partial" then parseLoop rest2 { opts with cMode := .Part }
          else if str = "full" then parseLoop rest2 { opts with cMode := .Full }
          else .usageExit false
      else if arg = "-s" ∨ arg = "--stats" then
        match rest with
        | [] => .usageExit false
        | v :: rest2 =>
          let str := lowerStr v
          if str = "none" then parseLoop rest2 { opts with sMode := .Disable }
          else if str = "bbox" then parseLoop rest2 { opts with sMode := .BBox }
          else if str = "extrema" then parseLoop rest2 { opts with sMode := .MinMax }
          else if str = "all" then parseLoop rest2 { opts with sMode := .All }
          else .usageExit false
      else if arg = "-g" ∨ arg = "--grid" then
        match rest with
        | [] => .usageExit false
        | v :: rest2 => parseLoop rest2 { opts with gridName := v }
      else .usageExit false
    else if arg = "" then
      parseLoop rest opts
    else
      parseLoop rest { opts with fileNames := opts.fileNames ++ [arg] }

/-- The extension of a path as the source computes it:
`s.substr(s.find_last_of(".") + 1)` (lines 121, 155, 185) — the suffix
after the last `.`, or the whole string when there is no `.`. -/
def extOf (s : String) : String :=
  String.mk ((s.data.reverse.takeWhile (fun c => c ≠ '.')).reverse)

/-- The overwrite-prompt acceptance test of line 138: the run proceeds
exactly when the answer is empty or one of the four literals
`Y`, `y`, `yes`, `YES` (the source negates this to decide to exit). -/
def affirmative (answer : String) : Bool :=
  answer = "" || answer = "Y" || answer = "y" || answer = "yes" || answer = "YES"

/-- Abstraction of the environment the driver runs in: whether the file
at a given path currently exists with at least one byte (the
`is.peek() != eof` test of line 134), the line read from standard input
at the overwrite prompt (line 137), and the names of the grids stored in
each input file (used by both library formats). -/
structure World where
  outputNonEmpty : String → Bool
  answer : String
  grids : String → List String

/-- Observable file-system events of a run, in order: opening the output
`ofstream` (which truncates the file, line 153), opening an OpenVDB
input file (line 161-162), writing one converted grid to the open output
stream (lines 170, 178), reading a NanoVDB input file (lines 192, 199),
and the single whole-file OpenVDB write (line 209). -/
inductive Event
  | openOutput (path : String)
  | openInput (path : String)
  | writeStream (grid : String)
  | readInput (path : String)
  | writeFile (path : String)
deriving DecidableEq, Repr

/-- How a run terminates: usage text with `EXIT_SUCCESS` (help), usage
text with `EXIT_FAILURE`, the user declining the overwrite prompt
(`exit(EXIT_SUCCESS)`, line 140), normal completion, or a library
exception caught at lines 217-224 (exit status `EXIT_FAILURE`). -/
inductive Outcome
  | usageSuccess
  | usageFailure
  | declined
  | completed
  | exceptionExit
deriving DecidableEq, Repr

/-- The process exit status of each outcome (`EXIT_SUCCESS` = 0,
`EXIT_FAILURE` = 1). -/
def statusOf : Outcome → Nat
  | .usageSuccess => 0
  | .usageFailure => 1
  | .declined => 0
  | .completed => 0
  | .exceptionExit => 1

/-- Result of a run: how it terminated, the file-system event trace, and
the value of the `toNanoVDB` direction flag when the classification at
lines 122-128 was reached (`none` when the run ended before it). -/
structure RunResult where
  outcome : Outcome
  events : List Event
  direction : Option Bool := none
deriving DecidableEq, Repr

/-- Modelled from the spec: `openvdb::io::File::readGrid(name)` is
external library code (not under `src/`); per the spec's §9 open
question, when no grid of the given name exists it "would simply throw
from the underlying read".  `none` stands for that thrown exception. -/
def openReadGrid (w : World) (f g : String) : Option String :=
  if (w.grids f).contains g then some g else none

/-- The OpenVDB-to-NanoVDB conversion loop, lines 152-180.  The output
stream is already open (its `openOutput` event is in the initial trace).
For each input file: a non-`.vdb` extension is a usage failure
(lines 155-158); otherwise the file is opened and either every grid in
it, or only the named grid, is converted and immediately written to the
output stream.  A missing named grid surfaces as a library exception
(`openReadGrid` returning `none`), caught by the top-level handler. -/
def toNanoLoop (w : World) (gridName : String) :
    List String → List Event → RunResult
  | [], evs => { outcome := .completed, events := evs, direction := some true }
  | f :: rest, evs =>
    if extOf f ≠ "vdb" then
      { outcome := .usageFailure, events := evs, direction := some true }
    else
      let evs := evs ++ [Event.openInput f]
      if gridName = "" then
        toNanoLoop w gridName rest (evs ++ (w.grids f).map Event.writeStream)
      else
        match openReadGrid w f gridName with
        | some g => toNanoLoop w gridName rest (evs ++ [Event.writeStream g])
        | none => { outcome := .exceptionExit, events := evs, direction := some true }

/-- The NanoVDB-to-OpenVDB conversion loop, lines 184-208.  For each
input file: a non-`.nvdb` extension is a usage failure (lines 185-188);
otherwise the file is read and its grids (all of them, or the named
one) are appended to the in-memory accumulator `acc`.  When the named
grid is absent the handle is empty and the run is a usage failure
(lines 200-203).  Nothing is written here; the caller performs the
single whole-file write after the loop completes. -/
def toOpenLoop (w : World) (gridName : String) :
    List String → List Event → List String → Outcome × List Event × List String
  | [], evs, acc => (.completed, evs, acc)
  | f :: rest, evs, acc =>
    if extOf f ≠ "nvdb" then
      (.usageFailure, evs, acc)
    else if gridName = "" then
      toOpenLoop w gridName rest (evs ++ [Event.readInput f]) (acc ++ w.grids f)
    else if (w.grids f).contains gridName then
      toOpenLoop w gridName rest (evs ++ [Event.readInput f]) (acc ++ [gridName])
    else
      (.usageFailure, evs ++ [Event.readInput f], acc)

/-- The driver `main`, lines 40-227: parse the arguments; require at
least two file operands (lines 116-119); classify the direction from
the output file's extension (lines 120-128); unless `--force` was given,
prompt before overwriting an existing non-empty output file and exit
with success on a non-affirmative answer (lines 132-143); then run the
direction's conversion loop, the NanoVDB-to-OpenVDB direction ending
with the single whole-file write of line 209. -/
def run (w : World) (argv : List String) : RunResult :=
  match parseLoop argv {} with
  | .usageExit true => { outcome := .usageSuccess, events := [] }
  | .usageExit false => { outcome := .usageFailure, events := [] }
  | .ok opts =>
    if opts.fileNames.length < 2 then
      { outcome := .usageFailure, events := [] }
    else
      let outputFile := (opts.fileNames.getLast?).getD ""
      let ext := extOf outputFile
      if ext = "nvdb" ∨ ext = "vdb" then
        let toNanoVDB : Bool := ext == "nvdb"
        let inputs := opts.fileNames.dropLast
        if opts.overwrite = false ∧ w.outputNonEmpty outputFile = true ∧
            affirmative w.answer = false then
          { outcome := .declined, events := [], direction := some toNanoVDB }
        else if toNanoVDB then
          toNanoLoop w opts.gridName inputs [Event.openOutput outputFile]
        else
          match toOpenLoop w opts.gridName inputs [] [] with
          | (Outcome.completed, evs, _acc) =>
            { outcome := .completed, events := evs ++ [Event.writeFile outputFile],
              direction := some false }
          | (oc, evs, _acc) =>
            { outcome := oc, events := evs, direction := some false }
      else
        { outcome := .usageFailure, events := [] }


/-! ### Concrete worlds used to instantiate the theorems -/

/-- A world where the output path does not yet name a non-empty file, the
prompt (never shown) would be answered with an empty line, and every
input file holds a single grid named `density`. -/
def demoWorld : World :=
  { outputNonEmpty := fun _ => false, answer := "", grids := fun _ => ["density"] }

/-- A world where the output file already exists non-empty and the user
answers `Yes` at the prompt. -/
def promptWorldYes : World :=
  { outputNonEmpty := fun _ => true, answer := "Yes", grids := fun _ => ["density"] }

/-- A world where the output file already exists non-empty, the user
answers `n` at the prompt, and the input files hold no grids at all. -/
def promptWorldNo : World :=
  { outputNonEmpty := fun _ => true, answer := "n", grids := fun _ => [] }

/-- A world with no pre-existing output file and input files holding no
grids at all. -/
def emptyWorld : World :=
  { outputNonEmpty := fun _ => false, answer := "", grids := fun _ => [] }

/-- The file-system events contributed by one input file in the
OpenVDB-to-NanoVDB direction: open the file, then one stream write per
converted grid (all grids when no `--grid` filter is set, otherwise just
the named one). -/
def nanoFileEvents (w : World) (gridName f : String) : List Event :=
  Event.openInput f ::
    (if gridName = "" then (w.grids f).map Event.writeStream
     else [Event.writeStream gridName])

/-! ### Helper lemmas about the parsing loop -/

theorem parseLoop_blosc_step (rest : List String) (opts : Options) :
    parseLoop ("-b" :: rest) opts = parseLoop rest { opts with codec := .BLOSC } := by
  rw [parseLoop.eq_def]; simp [headIsDash]

theorem parseLoop_blosc_long_step (rest : List String) (opts : Options) :
    parseLoop ("--blosc" :: rest) opts = parseLoop rest { opts with codec := .BLOSC } := by
  rw [parseLoop.eq_def]; simp [headIsDash]

theorem parseLoop_zip_step (rest : List String) (opts : Options) :
    parseLoop ("-z" :: rest) opts = parseLoop rest { opts with codec := .ZIP } := by
  rw [parseLoop.eq_def]; simp [headIsDash]

theorem parseLoop_zip_long_step (rest : List String) (opts : Options) :
    parseLoop ("--zip" :: rest) opts = parseLoop rest { opts with codec := .ZIP } := by
  rw [parseLoop.eq_def]; simp [headIsDash]

theorem parseLoop_grid_step (v : String) (rest : List String) (opts : Options) :
    parseLoop ("-g" :: v :: rest) opts = parseLoop rest { opts with gridName := v } := by
  rw [parseLoop.eq_def]; simp [headIsDash]

theorem parseLoop_grid_long_step (v : String) (rest : List String) (opts : Options) :
    parseLoop ("--grid" :: v :: rest) opts = parseLoop rest { opts with gridName := v } := by
  rw [parseLoop.eq_def]; simp [headIsDash]

theorem parseLoop_checksum_step (v : String) (rest : List String) (opts : Options) :
    parseLoop ("-c" :: v :: rest) opts =
      (if lowerStr v = "none" then parseLoop rest { opts with cMode := .Disable }
       else if lowerStr v = "partial" then parseLoop rest { opts with cMode := .Part }
       else if lowerStr v = "full" then parseLoop rest { opts with cMode := .Full }
       else .usageExit false) := by
  rw [parseLoop.eq_def]; simp [headIsDash]

theorem parseLoop_checksum_long_step (v : String) (rest : List String) (opts : Options) :
    parseLoop ("--checksum" :: v :: rest) opts =
      (if lowerStr v = "none" then parseLoop rest { opts with cMode := .Disable }
       else if lowerStr v = "partial" then parseLoop rest { opts with cMode := .Part }
       else if lowerStr v = "full" then parseLoop rest { opts with cMode := .Full }
       else .usageExit false) := by
  rw [parseLoop.eq_def]; simp [headIsDash]

theorem parseLoop_stats_step (v : String) (rest : List String) (opts : Options) :
    parseLoop ("-s" :: v :: rest) opts =
      (if lowerStr v = "none" then parseLoop rest { opts with sMode := .Disable }
       else if lowerStr v = "bbox" then parseLoop rest { opts with sMode := .BBox }
       else if lowerStr v = "extrema" then parseLoop rest { opts with sMode := .MinMax }
       else if lowerStr v = "all" then parseLoop rest { opts with sMode := .All }
       else .usageExit false) := by
  rw [parseLoop.eq_def]; simp [headIsDash]

theorem parseLoop_stats_long_step (v : String) (rest : List String) (opts : Options) :
    parseLoop ("--stats" :: v :: rest) opts =
      (if lowerStr v = "none" then parseLoop rest { opts with sMode := .Disable }
       else if lowerStr v = "bbox" then parseLoop rest { opts with sMode := .BBox }
       else if lowerStr v = "extrema" then parseLoop rest { opts with sMode := .MinMax }
       else if lowerStr v = "all" then parseLoop rest { opts with sMode := .All }
       else .usageExit false) := by
  rw [parseLoop.eq_def]; simp [headIsDash]

/-! ### Helper lemmas about the conversion loops -/

theorem toNanoLoop_nil (w : World) (g : String) (evs : List Event) :
    toNanoLoop w g [] evs = { outcome := .completed, events := evs, direction := some true } := by
  rw [toNanoLoop.eq_def]

theorem toNanoLoop_cons (w : World) (g f : String) (rest : List String) (evs : List Event) :
    toNanoLoop w g (f :: rest) evs =
      if extOf f = "vdb" then
        (if g = "" then
          toNanoLoop w g rest (evs ++ [Event.openInput f] ++ (w.grids f).map Event.writeStream)
         else if (w.grids f).contains g then
          toNanoLoop w g rest (evs ++ [Event.openInput f] ++ [Event.writeStream g])
         else
          { outcome := .exceptionExit, events := evs ++ [Event.openInput f],
            direction := some true })
      else { outcome := .usageFailure, events := evs, direction := some true } := by
  rw [toNanoLoop.eq_def]
  by_cases hf : extOf f = "vdb"
  · by_cases hg : g = ""
    · simp [openReadGrid, hf, hg, List.append_assoc]
    · by_cases hc : g ∈ w.grids f
      · simp [openReadGrid, hf, hg, hc, List.append_assoc]
      · simp [openReadGrid, hf, hg, hc]
  · simp [hf]

theorem toOpenLoop_nil (w : World) (g : String) (evs : List Event) (acc : List String) :
    toOpenLoop w g [] evs acc = (.completed, evs, acc) := by
  rw [toOpenLoop.eq_def]

theorem toOpenLoop_cons (w : World) (g f : String) (rest : List String) (evs : List Event)
    (acc : List String) :
    toOpenLoop w g (f :: rest) evs acc =
      if extOf f = "nvdb" then
        (if g = "" then
          toOpenLoop w g rest (evs ++ [Event.readInput f]) (acc ++ w.grids f)
         else if (w.grids f).contains g then
          toOpenLoop w g rest (evs ++ [Event.readInput f]) (acc ++ [g])
         else (.usageFailure, evs ++ [Event.readInput f], acc))
      else (.usageFailure, evs, acc) := by
  rw [toOpenLoop.eq_def]
  by_cases hf : extOf f = "nvdb" <;> by_cases hg : g = "" <;>
    by_cases hc : (w.grids f).contains g = true <;>
    simp [hf, hg, hc]


theorem toNanoLoop_direction (w : World) (g : String) :
    ∀ (l : List String) (evs : List Event), (toNanoLoop w g l evs).direction = some true := by
  intro l
  induction l with
  | nil => intro evs; rw [toNanoLoop_nil]
  | cons f rest ih =>
    intro evs
    rw [toNanoLoop_cons]
    by_cases hf : extOf f = "vdb"
    · rw [if_pos hf]
      by_cases hg : g = ""
      · rw [if_pos hg]; exact ih _
      · rw [if_neg hg]
        by_cases hc : (w.grids f).contains g = true
        · rw [if_pos hc]; exact ih _
        · rw [if_neg hc]
    · rw [if_neg hf]

theorem toNanoLoop_outcome_cases (w : World) (g : String) :
    ∀ (l : List String) (evs : List Event),
      (toNanoLoop w g l evs).outcome = .completed ∨
      (toNanoLoop w g l evs).outcome = .usageFailure ∨
      (toNanoLoop w g l evs).outcome = .exceptionExit := by
  intro l
  induction l with
  | nil => intro evs; rw [toNanoLoop_nil]; left; rfl
  | cons f rest ih =>
    intro evs
    rw [toNanoLoop_cons]
    by_cases hf : extOf f = "vdb"
    · rw [if_pos hf]
      by_cases hg : g = ""
      · rw [if_pos hg]; exact ih _
      · rw [if_neg hg]
        by_cases hc : (w.grids f).contains g = true
        · rw [if_pos hc]; exact ih _
        · rw [if_neg hc]; right; right; rfl
    · rw [if_neg hf]; right; left; rfl

theorem toNanoLoop_events_prefix (w : World) (g : String) :
    ∀ (l : List String) (evs : List Event),
      ∃ tl, (toNanoLoop w g l evs).events = evs ++ tl := by
  intro l
  induction l with
  | nil => intro evs; exact ⟨[], by rw [toNanoLoop_nil]; simp⟩
  | cons f rest ih =>
    intro evs
    rw [toNanoLoop_cons]
    by_cases hf : extOf f = "vdb"
    · rw [if_pos hf]
      by_cases hg : g = ""
      · rw [if_pos hg]
        obtain ⟨tl, htl⟩ := ih (evs ++ [Event.openInput f] ++ (w.grids f).map Event.writeStream)
        exact ⟨[Event.openInput f] ++ (w.grids f).map Event.writeStream ++ tl, by
          rw [htl]; simp [List.append_assoc]⟩
      · rw [if_neg hg]
        by_cases hc : (w.grids f).contains g = true
        · rw [if_pos hc]
          obtain ⟨tl, htl⟩ := ih (evs ++ [Event.openInput f] ++ [Event.writeStream g])
          exact ⟨[Event.openInput f] ++ [Event.writeStream g] ++ tl, by
            rw [htl]; simp [List.append_assoc]⟩
        · rw [if_neg hc]
          exact ⟨[Event.openInput f], by simp⟩
    · rw [if_neg hf]
      exact ⟨[], by simp⟩

theorem toNanoLoop_not_completed (w : World) (g : String) :
    ∀ (l : List String) (evs : List Event), (∃ f ∈ l, extOf f ≠ "vdb") →
      (toNanoLoop w g l evs).outcome = .usageFailure ∨
      (toNanoLoop w g l evs).outcome = .exceptionExit := by
  intro l
  induction l with
  | nil => intro evs h; simp at h
  | cons f rest ih =>
    intro evs h
    rw [toNanoLoop_cons]
    by_cases hf : extOf f = "vdb"
    · rw [if_pos hf]
      have hrest : ∃ f₀ ∈ rest, extOf f₀ ≠ "vdb" := by
        obtain ⟨f₀, hmem, hne⟩ := h
        rcases List.mem_cons.mp hmem with h1 | h1
        · exact absurd (show extOf f₀ = "vdb" by rw [h1]; exact hf) hne
        · exact ⟨f₀, h1, hne⟩
      by_cases hg : g = ""
      · rw [if_pos hg]; exact ih _ hrest
      · rw [if_neg hg]
        by_cases hc : (w.grids f).contains g = true
        · rw [if_pos hc]; exact ih _ hrest
        · rw [if_neg hc]; right; rfl
    · rw [if_neg hf]; left; rfl

theorem toNanoLoop_completed_events (w : World) (g : String) :
    ∀ (l : List String) (evs : List Event),
      (toNanoLoop w g l evs).outcome = .completed →
      (toNanoLoop w g l evs).events = evs ++ l.flatMap (nanoFileEvents w g) := by
  intro l
  induction l with
  | nil => intro evs _; rw [toNanoLoop_nil]; simp
  | cons f rest ih =>
    intro evs hc0
    rw [toNanoLoop_cons] at hc0 ⊢
    by_cases hf : extOf f = "vdb"
    · rw [if_pos hf] at hc0 ⊢
      by_cases hg : g = ""
      · rw [if_pos hg] at hc0 ⊢
        rw [ih _ hc0]
        simp [nanoFileEvents, hg, List.append_assoc]
      · rw [if_neg hg] at hc0 ⊢
        by_cases hcg : (w.grids f).contains g = true
        · rw [if_pos hcg] at hc0 ⊢
          rw [ih _ hc0]
          simp [nanoFileEvents, hg, List.append_assoc]
        · rw [if_neg hcg] at hc0
          simp at hc0
    · rw [if_neg hf] at hc0
      simp at hc0

theorem toOpenLoop_outcome_cases (w : World) (g : String) :
    ∀ (l : List String) (evs : List Event) (acc : List String),
      (toOpenLoop w g l evs acc).1 = .completed ∨
      (toOpenLoop w g l evs acc).1 = .usageFailure := by
  intro l
  induction l with
  | nil => intro evs acc; rw [toOpenLoop_nil]; left; rfl
  | cons f rest ih =>
    intro evs acc
    rw [toOpenLoop_cons]
    by_cases hf : extOf f = "nvdb"
    · rw [if_pos hf]
      by_cases hg : g = ""
      · rw [if_pos hg]; exact ih _ _
      · rw [if_neg hg]
        by_cases hc : (w.grids f).contains g = true
        · rw [if_pos hc]; exact ih _ _
        · rw [if_neg hc]; right; rfl
    · rw [if_neg hf]; right; rfl

theorem toOpenLoop_events_shape (w : World) (g : String) :
    ∀ (l : List String) (evs : List Event) (acc : List String),
      ∃ tl, (toOpenLoop w g l evs acc).2.1 = evs ++ tl ∧
        ∀ e ∈ tl, ∃ f, e = Event.readInput f := by
  intro l
  induction l with
  | nil =>
    intro evs acc
    exact ⟨[], by rw [toOpenLoop_nil]; simp, by simp⟩
  | cons f rest ih =>
    intro evs acc
    rw [toOpenLoop_cons]
    by_cases hf : extOf f = "nvdb"
    · rw [if_pos hf]
      by_cases hg : g = ""
      · rw [if_pos hg]
        obtain ⟨tl, htl, hall⟩ := ih (evs ++ [Event.readInput f]) (acc ++ w.grids f)
        refine ⟨Event.readInput f :: tl, by rw [htl]; simp, ?_⟩
        intro e he
        rcases List.mem_cons.mp he with h1 | h1
        · exact ⟨f, h1⟩
        · exact hall e h1
      · rw [if_neg hg]
        by_cases hc : (w.grids f).contains g = true
        · rw [if_pos hc]
          obtain ⟨tl, htl, hall⟩ := ih (evs ++ [Event.readInput f]) (acc ++ [g])
          refine ⟨Event.readInput f :: tl, by rw [htl]; simp, ?_⟩
          intro e he
          rcases List.mem_cons.mp he with h1 | h1
          · exact ⟨f, h1⟩
          · exact hall e h1
        · rw [if_neg hc]
          refine ⟨[Event.readInput f], by simp, ?_⟩
          intro e he
          exact ⟨f, by simpa using he⟩
    · rw [if_neg hf]
      exact ⟨[], by simp, by simp⟩

theorem toOpenLoop_completed_events (w : World) (g : String) :
    ∀ (l : List String) (evs : List Event) (acc : List String),
      (toOpenLoop w g l evs acc).1 = .completed →
      (toOpenLoop w g l evs acc).2.1 = evs ++ l.map Event.readInput := by
  intro l
  induction l with
  | nil => intro evs acc _; rw [toOpenLoop_nil]; simp
  | cons f rest ih =>
    intro evs acc hc0
    rw [toOpenLoop_cons] at hc0 ⊢
    by_cases hf : extOf f = "nvdb"
    · rw [if_pos hf] at hc0 ⊢
      by_cases hg : g = ""
      · rw [if_pos hg] at hc0 ⊢
        rw [ih _ _ hc0]
        simp
      · rw [if_neg hg] at hc0 ⊢
        by_cases hcg : (w.grids f).contains g = true
        · rw [if_pos hcg] at hc0 ⊢
          rw [ih _ _ hc0]
          simp
        · rw [if_neg hcg] at hc0
          simp at hc0
    · rw [if_neg hf] at hc0
      simp at hc0

theorem toOpenLoop_missing_first (w : World) (g : String) (hg : g ≠ "")
    (f : String) (rest : List String) (evs : List Event) (acc : List String)
    (hmiss : (w.grids f).contains g = false) :
    (toOpenLoop w g (f :: rest) evs acc).1 = .usageFailure := by
  rw [toOpenLoop_cons]
  by_cases hf : extOf f = "nvdb"
  · rw [if_pos hf, if_neg hg, if_neg (show ¬ ((w.grids f).contains g = true) by
      intro hcon; rw [hmiss] at hcon; exact Bool.noConfusion hcon)]
  · rw [if_neg hf]

/-! ### Helper lemmas about the driver -/

theorem run_parse_fail (w : World) (argv : List String)
    (hp : parseLoop argv {} = .usageExit false) :
    run w argv = { outcome := .usageFailure, events := [] } := by
  simp [run, hp]

theorem run_help (w : World) (argv : List String)
    (hp : parseLoop argv {} = .usageExit true) :
    run w argv = { outcome := .usageSuccess, events := [] } := by
  simp [run, hp]

theorem run_short (w : World) (argv : List String) (opts : Options)
    (hp : parseLoop argv {} = .ok opts)
    (hlen : opts.fileNames.length < 2) :
    run w argv = { outcome := .usageFailure, events := [] } := by
  simp [run, hp, hlen]

theorem run_conv (w : World) (argv : List String) (opts : Options)
    (inputs : List String) (out : String)
    (hp : parseLoop argv {} = .ok opts)
    (hf : opts.fileNames = inputs ++ [out])
    (hne : inputs ≠ []) :
    run w argv =
      (if extOf out = "nvdb" ∨ extOf out = "vdb" then
        if opts.overwrite = false ∧ w.outputNonEmpty out = true ∧
            affirmative w.answer = false then
          { outcome := .declined, events := [], direction := some (extOf out == "nvdb") }
        else if extOf out == "nvdb" then
          toNanoLoop w opts.gridName inputs [Event.openOutput out]
        else
          match toOpenLoop w opts.gridName inputs [] [] with
          | (Outcome.completed, evs, _acc) =>
            { outcome := .completed, events := evs ++ [Event.writeFile out],
              direction := some false }
          | (oc, evs, _acc) => { outcome := oc, events := evs, direction := some false }
      else { outcome := .usageFailure, events := [] }) := by
  have hpos : 0 < inputs.length := List.length_pos.mpr hne
  have hlen : ¬ opts.fileNames.length < 2 := by
    rw [hf, List.length_append]
    simp only [List.length_cons, List.length_nil]
    omega
  have hlast : (opts.fileNames.getLast?).getD "" = out := by
    rw [hf, List.getLast?_concat]
    rfl
  have hdrop : opts.fileNames.dropLast = inputs := by
    rw [hf, List.dropLast_concat]
  simp only [run, hp]
  rw [if_neg hlen, hlast, hdrop]

theorem run_declined (w : World) (argv : List String) (opts : Options)
    (inputs : List String) (out : String)
    (hp : parseLoop argv {} = .ok opts)
    (hf : opts.fileNames = inputs ++ [out])
    (hne : inputs ≠ [])
    (hext : extOf out = "nvdb" ∨ extOf out = "vdb")
    (hstop : opts.overwrite = false ∧ w.outputNonEmpty out = true ∧
      affirmative w.answer = false) :
    run w argv =
      { outcome := .declined, events := [], direction := some (extOf out == "nvdb") } := by
  rw [run_conv w argv opts inputs out hp hf hne, if_pos hext, if_pos hstop]

theorem run_toNano (w : World) (argv : List String) (opts : Options)
    (inputs : List String) (out : String)
    (hp : parseLoop argv {} = .ok opts)
    (hf : opts.fileNames = inputs ++ [out])
    (hne : inputs ≠ [])
    (hext : extOf out = "nvdb")
    (hprompt : ¬(opts.overwrite = false ∧ w.outputNonEmpty out = true ∧
      affirmative w.answer = false)) :
    run w argv = toNanoLoop w opts.gridName inputs [Event.openOutput out] := by
  rw [run_conv w argv opts inputs out hp hf hne, if_pos (Or.inl hext), if_neg hprompt,
    if_pos (show (extOf out == "nvdb") = true by simp [hext])]

theorem run_toOpen_completed (w : World) (argv : List String) (opts : Options)
    (inputs : List String) (out : String)
    (hp : parseLoop argv {} = .ok opts)
    (hf : opts.fileNames = inputs ++ [out])
    (hne : inputs ≠ [])
    (hext : extOf out = "vdb")
    (hprompt : ¬(opts.overwrite = false ∧ w.outputNonEmpty out = true ∧
      affirmative w.answer = false))
    (evs : List Event) (acc : List String)
    (hres : toOpenLoop w opts.gridName inputs [] [] = (.completed, evs, acc)) :
    run w argv =
      { outcome := .completed, events := evs ++ [Event.writeFile out],
        direction := some false } := by
  rw [run_conv w argv opts inputs out hp hf hne, if_pos (Or.inr hext), if_neg hprompt,
    if_neg (show ¬ ((extOf out == "nvdb") = true) by simp [hext]), hres]

theorem run_toOpen_failed (w : World) (argv : List String) (opts : Options)
    (inputs : List String) (out : String)
    (hp : parseLoop argv {} = .ok opts)
    (hf : opts.fileNames = inputs ++ [out])
    (hne : inputs ≠ [])
    (hext : extOf out = "vdb")
    (hprompt : ¬(opts.overwrite = false ∧ w.outputNonEmpty out = true ∧
      affirmative w.answer = false))
    (oc : Outcome) (evs : List Event) (acc : List String)
    (hoc : oc ≠ .completed)
    (hres : toOpenLoop w opts.gridName inputs [] [] = (oc, evs, acc)) :
    run w argv = { outcome := oc, events := evs, direction := some false } := by
  rw [run_conv w argv opts inputs out hp hf hne, if_pos (Or.inr hext), if_neg hprompt,
    if_neg (show ¬ ((extOf out == "nvdb") = true) by simp [hext]), hres]
  cases oc
  case usageSuccess => rfl
  case usageFailure => rfl
  case declined => rfl
  case completed => exact absurd rfl hoc
  case exceptionExit => rfl

theorem toNanoLoop_outcome_ne_declined (w : World) (g : String) (l : List String)
    (evs : List Event) : (toNanoLoop w g l evs).outcome ≠ .declined := by
  rcases toNanoLoop_outcome_cases w g l evs with h | h | h <;> simp [h]

theorem toOpenLoop_outcome_ne_declined (w : World) (g : String) (l : List String)
    (evs : List Event) (acc : List String) : (toOpenLoop w g l evs acc).1 ≠ .declined := by
  rcases toOpenLoop_outcome_cases w g l evs acc with h | h <;> simp [h]

/-! ### The claims -/

/-- C5 (corrected): supplying fewer than two file-path operands fails
with a usage error, a non-zero exit status and no file activity,
regardless of the other flags given — except that a `-h,--help` token
processed during parsing prints usage and exits with status 0 first. -/
theorem claim_C5 (w : World) (argv : List String)
    (hnothelp : parseLoop argv {} ≠ .usageExit true)
    (hshort : ∀ opts : Options, parseLoop argv {} = .ok opts → opts.fileNames.length < 2) :
    (run w argv).outcome = .usageFailure ∧ statusOf (run w argv).outcome = 1 ∧
    (run w argv).events = [] := by
  rcases hres : parseLoop argv {} with opts | success
  · rw [run_short w argv opts hres (hshort opts hres)]
    exact ⟨rfl, rfl, rfl⟩
  · cases success
    · rw [run_parse_fail w argv hres]
      exact ⟨rfl, rfl, rfl⟩
    · exact absurd hres hnothelp

/-- C5, restated as in the spec, is false: the invocation `-h` supplies
zero file-path operands yet exits with status 0 (after printing usage),
not with a non-zero status. -/
theorem claim_C5_counterexample :
    run demoWorld ["-h"] = { outcome := .usageSuccess, events := [], direction := none } ∧
    statusOf (run demoWorld ["-h"]).outcome = 0 := by
  decide

theorem claim_C5_witness :
    (run demoWorld ["x"]).outcome = .usageFailure ∧
    statusOf (run demoWorld ["x"]).outcome = 1 ∧ (run demoWorld ["x"]).events = [] :=
  claim_C5 demoWorld ["x"] (by decide)
    (by
      intro opts h
      rw [(by decide : parseLoop ["x"] ({} : Options) = .ok { fileNames := ["x"] })] at h
      cases h
      decide)

/-- C6 (confirmed): the conversion direction is decided solely by the
output path's extension — `nvdb` selects OpenVDB-to-NanoVDB (direction
flag `true`), `vdb` selects NanoVDB-to-OpenVDB (direction flag `false`),
and any other extension is a fatal usage error with a non-zero exit and
no file activity. -/
theorem claim_C6 (w : World) (argv : List String) (opts : Options)
    (inputs : List String) (out : String)
    (hp : parseLoop argv {} = .ok opts)
    (hf : opts.fileNames = inputs ++ [out])
    (hne : inputs ≠ []) :
    (extOf out = "nvdb" → (run w argv).direction = some true) ∧
    (extOf out = "vdb" → (run w argv).direction = some false) ∧
    (extOf out ≠ "nvdb" → extOf out ≠ "vdb" →
      (run w argv).outcome = .usageFailure ∧ statusOf (run w argv).outcome = 1 ∧
      (run w argv).events = []) := by
  refine ⟨?_, ?_, ?_⟩
  · intro hext
    by_cases hstop : opts.overwrite = false ∧ w.outputNonEmpty out = true ∧
      affirmative w.answer = false
    · rw [run_declined w argv opts inputs out hp hf hne (Or.inl hext) hstop]
      simp [hext]
    · rw [run_toNano w argv opts inputs out hp hf hne hext hstop]
      exact toNanoLoop_direction w opts.gridName inputs _
  · intro hext
    by_cases hstop : opts.overwrite = false ∧ w.outputNonEmpty out = true ∧
      affirmative w.answer = false
    · rw [run_declined w argv opts inputs out hp hf hne (Or.inr hext) hstop]
      simp [hext]
    · rcases hres : toOpenLoop w opts.gridName inputs [] [] with ⟨oc, evs, acc⟩
      by_cases hoc : oc = Outcome.completed
      · subst hoc
        rw [run_toOpen_completed w argv opts inputs out hp hf hne hext hstop evs acc hres]
      · rw [run_toOpen_failed w argv opts inputs out hp hf hne hext hstop oc evs acc hoc hres]
  · intro h1 h2
    have hbad : ¬(extOf out = "nvdb" ∨ extOf out = "vdb") := by tauto
    rw [run_conv w argv opts inputs out hp hf hne, if_neg hbad]
    exact ⟨rfl, rfl, rfl⟩

theorem claim_C6_witness :
    extOf "out.nvdb" = "nvdb" ∧
    (run demoWorld ["in.vdb", "out.nvdb"]).direction = some true :=
  ⟨by decide,
    (claim_C6 demoWorld ["in.vdb", "out.nvdb"] { fileNames := ["in.vdb", "out.nvdb"] }
      ["in.vdb"] "out.nvdb" (by decide) rfl (by decide)).1 (by decide)⟩

/-- C7 (confirmed): a `-c,--checksum` value whose lower-casing is not one
of the mode words `none`, `partial`, `full`, and a `-s,--stats` value
whose lower-casing is not one of `none`, `bbox`, `extrema`, `all`, make
the parse stop with a usage failure — the options state is discarded
rather than falling back to a default mode — and such a parse failure
makes the whole run exit with the usage error status 1. -/
theorem claim_C7 :
    (∀ (v : String) (rest : List String) (opts : Options),
        lowerStr v ∉ ["none", "partial", "full"] →
          parseLoop ("-c" :: v :: rest) opts = .usageExit false ∧
          parseLoop ("--checksum" :: v :: rest) opts = .usageExit false) ∧
    (∀ (v : String) (rest : List String) (opts : Options),
        lowerStr v ∉ ["none", "bbox", "extrema", "all"] →
          parseLoop ("-s" :: v :: rest) opts = .usageExit false ∧
          parseLoop ("--stats" :: v :: rest) opts = .usageExit false) ∧
    (∀ (w : World) (argv : List String),
        parseLoop argv {} = .usageExit false →
          (run w argv).outcome = .usageFailure ∧
          statusOf (run w argv).outcome = 1) := by
  refine ⟨?_, ?_, ?_⟩
  · intro v rest opts hv
    simp only [List.mem_cons, List.mem_singleton, List.not_mem_nil, or_false, not_or] at hv
    obtain ⟨h1, h2, h3⟩ := hv
    constructor
    · rw [parseLoop_checksum_step, if_neg h1, if_neg h2, if_neg h3]
    · rw [parseLoop_checksum_long_step, if_neg h1, if_neg h2, if_neg h3]
  · intro v rest opts hv
    simp only [List.mem_cons, List.mem_singleton, List.not_mem_nil, or_false, not_or] at hv
    obtain ⟨h1, h2, h3, h4⟩ := hv
    constructor
    · rw [parseLoop_stats_step, if_neg h1, if_neg h2, if_neg h3, if_neg h4]
    · rw [parseLoop_stats_long_step, if_neg h1, if_neg h2, if_neg h3, if_neg h4]
  · intro w argv hp
    rw [run_parse_fail w argv hp]
    exact ⟨rfl, rfl⟩

theorem claim_C7_witness :
    parseLoop ["-c", "bogus", "a", "b"] {} = .usageExit false ∧
    (run demoWorld ["-c", "bogus", "a", "b"]).outcome = .usageFailure :=
  ⟨(claim_C7.1 "bogus" ["a", "b"] {} (by decide)).1,
   (claim_C7.2.2 demoWorld ("-c" :: "bogus" :: ["a", "b"])
     ((claim_C7.1 "bogus" ["a", "b"] {} (by decide)).1)).1⟩

/-- C9 (confirmed): the `-c,--checksum` and `-s,--stats` values are
matched after lower-casing, so every case variant of a valid mode word
selects the corresponding mode and parsing continues — no usage error. -/
theorem claim_C9 :
    (∀ (v : String) (rest : List String) (opts : Options),
      (lowerStr v = "none" →
        parseLoop ("-c" :: v :: rest) opts = parseLoop rest { opts with cMode := .Disable } ∧
        parseLoop ("--checksum" :: v :: rest) opts =
          parseLoop rest { opts with cMode := .Disable }) ∧
      (lowerStr v = "partial" →
        parseLoop ("-c" :: v :: rest) opts = parseLoop rest { opts with cMode := .Part } ∧
        parseLoop ("--checksum" :: v :: rest) opts =
          parseLoop rest { opts with cMode := .Part }) ∧
      (lowerStr v = "full" →
        parseLoop ("-c" :: v :: rest) opts = parseLoop rest { opts with cMode := .Full } ∧
        parseLoop ("--checksum" :: v :: rest) opts =
          parseLoop rest { opts with cMode := .Full })) ∧
    (∀ (v : String) (rest : List String) (opts : Options),
      (lowerStr v = "none" →
        parseLoop ("-s" :: v :: rest) opts = parseLoop rest { opts with sMode := .Disable } ∧
        parseLoop ("--stats" :: v :: rest) opts =
          parseLoop rest { opts with sMode := .Disable }) ∧
      (lowerStr v = "bbox" →
        parseLoop ("-s" :: v :: rest) opts = parseLoop rest { opts with sMode := .BBox } ∧
        parseLoop ("--stats" :: v :: rest) opts =
          parseLoop rest { opts with sMode := .BBox }) ∧
      (lowerStr v = "extrema" →
        parseLoop ("-s" :: v :: rest) opts = parseLoop rest { opts with sMode := .MinMax } ∧
        parseLoop ("--stats" :: v :: rest) opts =
          parseLoop rest { opts with sMode := .MinMax }) ∧
      (lowerStr v = "all" →
        parseLoop ("-s" :: v :: rest) opts = parseLoop rest { opts with sMode := .All } ∧
        parseLoop ("--stats" :: v :: rest) opts =
          parseLoop rest { opts with sMode := .All })) := by
  constructor
  · intro v rest opts
    refine ⟨fun hv => ⟨?_, ?_⟩, fun hv => ⟨?_, ?_⟩, fun hv => ⟨?_, ?_⟩⟩ <;>
      simp [parseLoop_checksum_step, parseLoop_checksum_long_step, hv]
  · intro v rest opts
    refine ⟨fun hv => ⟨?_, ?_⟩, fun hv => ⟨?_, ?_⟩, fun hv => ⟨?_, ?_⟩, fun hv => ⟨?_, ?_⟩⟩ <;>
      simp [parseLoop_stats_step, parseLoop_stats_long_step, hv]

theorem claim_C9_witness :
    parseLoop ["-c", "FULL", "a", "b"] {} =
      .ok { cMode := ChecksumMode.Full, fileNames := ["a", "b"] } := by
  have h := ((claim_C9.1 "FULL" ["a", "b"] {}).2.2 (by decide)).1
  rw [h]
  decide

/-- C10 (confirmed): parsing is left-to-right with later occurrences
overriding earlier ones — each codec flag overwrites whatever codec is
already in the state, `-g,--grid` overwrites the stored grid name, and
in complete invocations with both a blosc and a zip flag, or a repeated
`-c`, `-s` or `-g` option, the last flag or value supplied is the one in
the final options. -/
theorem claim_C10 :
    (∀ (rest : List String) (opts : Options),
      parseLoop ("-b" :: rest) opts = parseLoop rest { opts with codec := .BLOSC } ∧
      parseLoop ("--blosc" :: rest) opts = parseLoop rest { opts with codec := .BLOSC } ∧
      parseLoop ("-z" :: rest) opts = parseLoop rest { opts with codec := .ZIP } ∧
      parseLoop ("--zip" :: rest) opts = parseLoop rest { opts with codec := .ZIP }) ∧
    (∀ (v : String) (rest : List String) (opts : Options),
      parseLoop ("-g" :: v :: rest) opts = parseLoop rest { opts with gridName := v } ∧
      parseLoop ("--grid" :: v :: rest) opts = parseLoop rest { opts with gridName := v }) ∧
    (parseLoop ["-b", "-z", "a", "b"] {} = .ok { codec := .ZIP, fileNames := ["a", "b"] } ∧
     parseLoop ["-z", "-b", "a", "b"] {} = .ok { codec := .BLOSC, fileNames := ["a", "b"] } ∧
     parseLoop ["-c", "none", "-c", "full", "a", "b"] {} =
       .ok { cMode := ChecksumMode.Full, fileNames := ["a", "b"] } ∧
     parseLoop ["-s", "bbox", "-s", "all", "a", "b"] {} =
       .ok { sMode := StatsMode.All, fileNames := ["a", "b"] } ∧
     parseLoop ["-g", "x", "-g", "y", "a", "b"] {} =
       .ok { gridName := "y", fileNames := ["a", "b"] }) := by
  refine ⟨?_, ?_, ?_⟩
  · intro rest opts
    exact ⟨parseLoop_blosc_step rest opts, parseLoop_blosc_long_step rest opts,
      parseLoop_zip_step rest opts, parseLoop_zip_long_step rest opts⟩
  · intro v rest opts
    exact ⟨parseLoop_grid_step v rest opts, parseLoop_grid_long_step v rest opts⟩
  · exact ⟨by decide, by decide, by decide, by decide, by decide⟩

/-- C1 (corrected): with an `.nvdb` output and some input not ending in
`.vdb`, the run never completes — it ends in a usage failure at the
first mismatching input (or in a caught library exception if `--grid`
names a grid missing from an earlier input), with exit status 1 — but
not "before touching any file": the very first event of the run is the
opening (and truncation) of the output stream, which precedes every
input-extension check. -/
theorem claim_C1 (w : World) (argv : List String) (opts : Options)
    (inputs : List String) (out : String)
    (hp : parseLoop argv {} = .ok opts)
    (hf : opts.fileNames = inputs ++ [out])
    (hne : inputs ≠ [])
    (hext : extOf out = "nvdb")
    (hbad : ∃ f ∈ inputs, extOf f ≠ "vdb")
    (hprompt : ¬(opts.overwrite = false ∧ w.outputNonEmpty out = true ∧
      affirmative w.answer = false)) :
    ((run w argv).outcome = .usageFailure ∨ (run w argv).outcome = .exceptionExit) ∧
    statusOf (run w argv).outcome = 1 ∧
    (run w argv).events.head? = some (Event.openOutput out) := by
  rw [run_toNano w argv opts inputs out hp hf hne hext hprompt]
  refine ⟨toNanoLoop_not_completed w opts.gridName inputs _ hbad, ?_, ?_⟩
  · rcases toNanoLoop_not_completed w opts.gridName inputs [Event.openOutput out] hbad with
      h | h
    · rw [h]
      rfl
    · rw [h]
      rfl
  · obtain ⟨tl, htl⟩ := toNanoLoop_events_prefix w opts.gridName inputs [Event.openOutput out]
    rw [htl]
    rfl

/-- C1, restated as in the spec, is false: with output `out.nvdb` and
inputs `a.vdb` (holding a grid `density`) and `b.txt`, the run does fail
with a usage error, but only after the output stream was opened
(truncating `out.nvdb`), the input `a.vdb` was opened, and its converted
grid was written to the output — files were touched before the mismatch
was reported. -/
theorem claim_C1_counterexample :
    run demoWorld ["a.vdb", "b.txt", "out.nvdb"] =
      { outcome := .usageFailure,
        events := [Event.openOutput "out.nvdb", Event.openInput "a.vdb",
          Event.writeStream "density"],
        direction := some true } ∧
    Event.openInput "a.vdb" ∈ (run demoWorld ["a.vdb", "b.txt", "out.nvdb"]).events ∧
    Event.writeStream "density" ∈ (run demoWorld ["a.vdb", "b.txt", "out.nvdb"]).events := by
  decide

theorem claim_C1_witness :
    ((run demoWorld ["b.txt", "out.nvdb"]).outcome = .usageFailure ∨
      (run demoWorld ["b.txt", "out.nvdb"]).outcome = .exceptionExit) ∧
    statusOf (run demoWorld ["b.txt", "out.nvdb"]).outcome = 1 ∧
    (run demoWorld ["b.txt", "out.nvdb"]).events.head? =
      some (Event.openOutput "out.nvdb") :=
  claim_C1 demoWorld ["b.txt", "out.nvdb"] { fileNames := ["b.txt", "out.nvdb"] }
    ["b.txt"] "out.nvdb" (by decide) rfl (by decide) (by decide) (by decide) (by decide)

/-- C2 (corrected): when `--force` is absent and the output file exists
non-empty, the run is abandoned (exit status 0, no file activity)
exactly when the prompt answer is non-affirmative, and the affirmative
answers are exactly the empty string and the four literals `Y`, `y`,
`yes`, `YES` — matching is not case-insensitive, so e.g. `Yes` or `yEs`
do not proceed. -/
theorem claim_C2 (w : World) (argv : List String) (opts : Options)
    (inputs : List String) (out : String)
    (hp : parseLoop argv {} = .ok opts)
    (hf : opts.fileNames = inputs ++ [out])
    (hne : inputs ≠ [])
    (hext : extOf out = "nvdb" ∨ extOf out = "vdb")
    (hforce : opts.overwrite = false)
    (hnonempty : w.outputNonEmpty out = true) :
    ((run w argv).outcome = .declined ↔ affirmative w.answer = false) ∧
    (affirmative w.answer = false →
      (run w argv).events = [] ∧ statusOf (run w argv).outcome = 0) ∧
    (∀ a : String, affirmative a = true ↔
      (a = "" ∨ a = "Y" ∨ a = "y" ∨ a = "yes" ∨ a = "YES")) := by
  refine ⟨?_, ?_, ?_⟩
  · by_cases haff : affirmative w.answer = false
    · rw [run_declined w argv opts inputs out hp hf hne hext ⟨hforce, hnonempty, haff⟩]
      simp [haff]
    · have hprompt : ¬(opts.overwrite = false ∧ w.outputNonEmpty out = true ∧
          affirmative w.answer = false) := fun hh => haff hh.2.2
      constructor
      · intro hdecl
        rcases hext with hx | hx
        · rw [run_toNano w argv opts inputs out hp hf hne hx hprompt] at hdecl
          exact absurd hdecl (toNanoLoop_outcome_ne_declined w opts.gridName inputs _)
        · rcases hres : toOpenLoop w opts.gridName inputs [] [] with ⟨oc, evs, acc⟩
          by_cases hoc : oc = Outcome.completed
          · subst hoc
            rw [run_toOpen_completed w argv opts inputs out hp hf hne hx hprompt
              evs acc hres] at hdecl
            exact Outcome.noConfusion hdecl
          · rw [run_toOpen_failed w argv opts inputs out hp hf hne hx hprompt
              oc evs acc hoc hres] at hdecl
            have := toOpenLoop_outcome_ne_declined w opts.gridName inputs [] []
            rw [hres] at this
            exact absurd hdecl this
      · intro h
        exact absurd h haff
  · intro haff
    rw [run_declined w argv opts inputs out hp hf hne hext ⟨hforce, hnonempty, haff⟩]
    exact ⟨rfl, rfl⟩
  · intro a
    simp [affirmative, or_assoc]

/-- C2, restated as in the spec, is false: with the output file existing
non-empty and no `--force`, the case variant `Yes` of an affirmative
answer does not proceed — the run exits immediately (with the success
status) without touching any file. -/
theorem claim_C2_counterexample :
    run promptWorldYes ["in.nvdb", "out.vdb"] =
      { outcome := .declined, events := [], direction := some false } ∧
    statusOf (run promptWorldYes ["in.nvdb", "out.vdb"]).outcome = 0 := by
  decide

theorem claim_C2_witness :
    (run promptWorldNo ["in.nvdb", "out.vdb"]).outcome = .declined :=
  (claim_C2 promptWorldNo ["in.nvdb", "out.vdb"] { fileNames := ["in.nvdb", "out.vdb"] }
    ["in.nvdb"] "out.vdb" (by decide) rfl (by decide) (by decide) rfl rfl).1.mpr (by decide)

/-- C3 (confirmed): in the NanoVDB-to-OpenVDB direction the translated
grids are accumulated and the output file is written exactly once, as
the final event, only after every input file has been read (a run that
does not complete never writes the output file at all); in the
OpenVDB-to-NanoVDB direction the output stream is opened first and each
input file's converted grids are appended to it immediately after that
file is opened, interleaved input by input. -/
theorem claim_C3 (w : World) (argv : List String) (opts : Options)
    (inputs : List String) (out : String)
    (hp : parseLoop argv {} = .ok opts)
    (hf : opts.fileNames = inputs ++ [out])
    (hne : inputs ≠ [])
    (hprompt : ¬(opts.overwrite = false ∧ w.outputNonEmpty out = true ∧
      affirmative w.answer = false)) :
    (extOf out = "vdb" →
      ((run w argv).outcome = .completed →
        (run w argv).events = inputs.map Event.readInput ++ [Event.writeFile out]) ∧
      ((run w argv).outcome ≠ .completed →
        Event.writeFile out ∉ (run w argv).events)) ∧
    (extOf out = "nvdb" →
      (run w argv).outcome = .completed →
        (run w argv).events =
          Event.openOutput out :: inputs.flatMap (nanoFileEvents w opts.gridName)) := by
  constructor
  · intro hext
    rcases hres : toOpenLoop w opts.gridName inputs [] [] with ⟨oc, evs, acc⟩
    by_cases hoc : oc = Outcome.completed
    · subst hoc
      rw [run_toOpen_completed w argv opts inputs out hp hf hne hext hprompt evs acc hres]
      constructor
      · intro _
        have hev : evs = inputs.map Event.readInput := by
          have h2 := toOpenLoop_completed_events w opts.gridName inputs [] []
          rw [hres] at h2
          simpa using h2 rfl
        show evs ++ [Event.writeFile out] = inputs.map Event.readInput ++ [Event.writeFile out]
        rw [hev]
      · intro hne2
        exact absurd rfl hne2
    · rw [run_toOpen_failed w argv opts inputs out hp hf hne hext hprompt oc evs acc hoc hres]
      constructor
      · intro hcomp
        exact absurd hcomp hoc
      · intro _
        obtain ⟨tl, htl, hall⟩ := toOpenLoop_events_shape w opts.gridName inputs [] []
        rw [hres] at htl
        have hevs : evs = tl := by simpa using htl
        intro hmem
        obtain ⟨f₀, hf0⟩ := hall _ (by rw [← hevs]; exact hmem)
        exact Event.noConfusion hf0
  · intro hext hcomp
    rw [run_toNano w argv opts inputs out hp hf hne hext hprompt] at hcomp ⊢
    rw [toNanoLoop_completed_events w opts.gridName inputs [Event.openOutput out] hcomp]
    rfl

theorem claim_C3_witness :
    extOf "out.vdb" = "vdb" ∧
    (run demoWorld ["in.nvdb", "out.vdb"]).events =
      [Event.readInput "in.nvdb", Event.writeFile "out.vdb"] := by
  have h := ((claim_C3 demoWorld ["in.nvdb", "out.vdb"]
      { fileNames := ["in.nvdb", "out.vdb"] } ["in.nvdb"] "out.vdb"
      (by decide) rfl (by decide) (by decide)).1 (by decide)).1 (by decide)
  exact ⟨by decide, by rw [h]; decide⟩

/-- C4 (corrected): with `--grid name`, direction NanoVDB-to-OpenVDB and
no grid in any input matching the name, the run fails with a usage error
(exit status 1) and the only file-system events are input reads — the
output file is neither written nor overwritten — provided the run is not
cancelled at the overwrite prompt (a cancelled run also leaves the
output untouched, but exits with status 0). -/
theorem claim_C4 (w : World) (argv : List String) (opts : Options)
    (inputs : List String) (out : String)
    (hp : parseLoop argv {} = .ok opts)
    (hf : opts.fileNames = inputs ++ [out])
    (hne : inputs ≠ [])
    (hext : extOf out = "vdb")
    (hg : opts.gridName ≠ "")
    (hmiss : ∀ f ∈ inputs, (w.grids f).contains opts.gridName = false)
    (hprompt : ¬(opts.overwrite = false ∧ w.outputNonEmpty out = true ∧
      affirmative w.answer = false)) :
    (run w argv).outcome = .usageFailure ∧ statusOf (run w argv).outcome = 1 ∧
    (∀ e ∈ (run w argv).events, ∃ f, e = Event.readInput f) := by
  rcases inputs with _ | ⟨f0, rest⟩
  · exact absurd rfl hne
  · have hfail : (toOpenLoop w opts.gridName (f0 :: rest) [] []).1 = .usageFailure :=
      toOpenLoop_missing_first w opts.gridName hg f0 rest [] []
        (hmiss f0 (List.mem_cons_self f0 rest))
    rcases hres : toOpenLoop w opts.gridName (f0 :: rest) [] [] with ⟨oc, evs, acc⟩
    rw [hres] at hfail
    simp only at hfail
    subst hfail
    rw [run_toOpen_failed w argv opts (f0 :: rest) out hp hf hne hext hprompt
      Outcome.usageFailure evs acc (by decide) hres]
    refine ⟨rfl, rfl, ?_⟩
    obtain ⟨tl, htl, hall⟩ := toOpenLoop_events_shape w opts.gridName (f0 :: rest) [] []
    rw [hres] at htl
    have hevs : evs = tl := by simpa using htl
    intro e he
    exact hall e (by rw [← hevs]; exact he)

/-- C4, restated as in the spec, is false: with `--grid g`, direction
NanoVDB-to-OpenVDB and no grid named `g` in any input, a run whose
existing non-empty output makes the tool prompt, and whose user answers
`n`, exits with status 0 — not with a non-zero status (the output is
still untouched). -/
theorem claim_C4_counterexample :
    run promptWorldNo ["-g", "g", "a.nvdb", "out.vdb"] =
      { outcome := .declined, events := [], direction := some false } ∧
    statusOf (run promptWorldNo ["-g", "g", "a.nvdb", "out.vdb"]).outcome = 0 := by
  decide

theorem claim_C4_witness :
    (run emptyWorld ["-g", "g", "a.nvdb", "out.vdb"]).outcome = .usageFailure ∧
    statusOf (run emptyWorld ["-g", "g", "a.nvdb", "out.vdb"]).outcome = 1 :=
  ⟨(claim_C4 emptyWorld ["-g", "g", "a.nvdb", "out.vdb"]
      { gridName := "g", fileNames := ["a.nvdb", "out.vdb"] } ["a.nvdb"] "out.vdb"
      (by decide) rfl (by decide) (by decide) (by decide) (by decide) (by decide)).1,
   (claim_C4 emptyWorld ["-g", "g", "a.nvdb", "out.vdb"]
      { gridName := "g", fileNames := ["a.nvdb", "out.vdb"] } ["a.nvdb"] "out.vdb"
      (by decide) rfl (by decide) (by decide) (by decide) (by decide) (by decide)).2.1⟩

/-- C8 (confirmed): when the output file exists non-empty and `--force`
is absent, a declining answer such as `n` makes the run exit with
status 0 and an empty event trace — no file is opened, truncated or
written, so the original output file is left byte-for-byte unmodified. -/
theorem claim_C8 (w : World) (argv : List String) (opts : Options)
    (inputs : List String) (out : String)
    (hp : parseLoop argv {} = .ok opts)
    (hf : opts.fileNames = inputs ++ [out])
    (hne : inputs ≠ [])
    (hext : extOf out = "nvdb" ∨ extOf out = "vdb")
    (hforce : opts.overwrite = false)
    (hnonempty : w.outputNonEmpty out = true)
    (hdecl : affirmative w.answer = false) :
    run w argv =
      { outcome := .declined, events := [], direction := some (extOf out == "nvdb") } ∧
    statusOf (run w argv).outcome = 0 := by
  have h := run_declined w argv opts inputs out hp hf hne hext ⟨hforce, hnonempty, hdecl⟩
  rw [h]
  exact ⟨rfl, rfl⟩

theorem claim_C8_witness :
    run promptWorldNo ["a.nvdb", "out.vdb"] =
      { outcome := .declined, events := [], direction := some (extOf "out.vdb" == "nvdb") } ∧
    statusOf (run promptWorldNo ["a.nvdb", "out.vdb"]).outcome = 0 :=
  claim_C8 promptWorldNo ["a.nvdb", "out.vdb"] { fileNames := ["a.nvdb", "out.vdb"] }
    ["a.nvdb"] "out.vdb" (by decide) rfl (by decide) (by decide) rfl rfl (by decide)

end NanoVDBConvert
